import Mathlib

/-!
Shallow embedding of `statechart/runtime.py` (classes `StateRuntimeData`,
`Metadata`, `Scope`) and proofs about it.

States are represented by natural-number identifiers.  The `State` class of
the library is not part of the runtime module; the only attribute of a state
the runtime reads is `state.context` (the owning parent, or `None` for the
chart root), which we pass around as a function `ctx : Nat → Option Nat`.
Python dictionaries are embedded as functions into `Option`; a method that
mutates `self` is embedded as a function returning the updated `Metadata`.
A raised `RuntimeError` is embedded as a `some message` second component.
-/

namespace Statechart

/-- Pointwise update of a map embedded as a function. -/
def upd {α : Type} (f : Nat → α) (k : Nat) (v : α) : Nat → α :=
  fun x => if x = k then v else f x

/-- `StateRuntimeData.__init__`: `current_state = None`, `state_set = list()`.
(The logger field carries no data and is omitted.) -/
structure StateRuntimeData where
  current_state : Option Nat
  state_set : List Nat
deriving DecidableEq, Repr

/-- A fresh `StateRuntimeData()`. -/
def StateRuntimeData.init : StateRuntimeData :=
  { current_state := none, state_set := [] }

/-- `Metadata.__init__`: `active_states = {}`, `event = None`,
`transition = None`, `_history_states = {}`. -/
structure Metadata where
  active_states : Nat → Option StateRuntimeData
  event : Option Nat
  transition : Option Nat
  history_states : Nat → Option Nat

/-- A fresh `Metadata()`. -/
def Metadata.init : Metadata :=
  { active_states := fun _ => none
    event := none
    transition := none
    history_states := fun _ => none }

/-- First half of `Metadata.activate(state)`: ensure `state` has a record
(`if not (state in self.active_states): self.active_states[state] =
StateRuntimeData()`), then reset that record's `current_state` to `None`.
Returns the resulting `active_states` dictionary. -/
def Metadata.activateBase (m : Metadata) (state : Nat) : Nat → Option StateRuntimeData :=
  let as0 :=
    if (m.active_states state).isSome then m.active_states
    else upd m.active_states state (some StateRuntimeData.init)
  let data := (as0 state).getD StateRuntimeData.init
  upd as0 state (some { data with current_state := none })

/-- `Metadata.activate(state)`.  `ctx` supplies `state.context`.  Mirrors the
Python statement order: first ensure `state` has a record and reset its
`current_state` to `None` (`activateBase`); then, if the state has a context,
raise `RuntimeError('Parent state not activated')` when the context has no
record, else point the context's record at `state`.  The second component is
the raised error, `none` on normal return; the first component is the
metadata as left behind by the call (also when it raised). -/
def Metadata.activate (ctx : Nat → Option Nat) (m : Metadata) (state : Nat) :
    Metadata × Option String :=
  let m1 : Metadata := { m with active_states := m.activateBase state }
  match ctx state with
  | none => (m1, none)
  | some p =>
    if (m1.active_states p).isSome then
      let pdata := (m1.active_states p).getD StateRuntimeData.init
      ({ m1 with
          active_states :=
            upd m1.active_states p (some { pdata with current_state := some state }) },
        none)
    else
      (m1, some "Parent state not activated")

/-- `Metadata.deactivate(state)`: if the state has a record, delete it
(the in-place `data.current_state = None` on the record about to be deleted
is unobservable through the dictionary); otherwise do nothing. -/
def Metadata.deactivate (m : Metadata) (state : Nat) : Metadata :=
  if (m.active_states state).isSome then
    { m with active_states := upd m.active_states state none }
  else
    m

/-- `Metadata.get_history_state(history_state)`:
`self._history_states[history_state]`; `none` embeds the `KeyError` raised
on an absent key. -/
def Metadata.get_history_state (m : Metadata) (history_state : Nat) : Option Nat :=
  m.history_states history_state

/-- `Metadata.has_history_info(history_state)`: `status = False`, set to
`True` when the key is present. -/
def Metadata.has_history_info (m : Metadata) (history_state : Nat) : Bool :=
  let status := false
  let status := if (m.history_states history_state).isSome then true else status
  status

/-- `Metadata.is_active(state)`: `status = False`, set to `True` when the key
is present, return `status`.  The method only reads `self`; the second
component is `self` as left behind by the call. -/
def Metadata.is_active (m : Metadata) (state : Nat) : Bool × Metadata :=
  let status := false
  let status := if (m.active_states state).isSome then true else status
  (status, m)

/-- `Metadata.reset()`: `active_states.clear()`, `_history_states.clear()`
(the `event` and `transition` fields are untouched). -/
def Metadata.reset (m : Metadata) : Metadata :=
  { m with active_states := fun _ => none, history_states := fun _ => none }

/-- `Metadata.store_history_info(history_state, actual_state)`:
`self._history_states[history_state] = actual_state`. -/
def Metadata.store_history_info (m : Metadata) (history_state actual_state : Nat) :
    Metadata :=
  { m with history_states := upd m.history_states history_state (some actual_state) }

/-- `Scope`: a `ChainMap` variant; `maps` is the ordered list of layers,
each embedded as a function. -/
structure Scope where
  maps : List (Nat → Option Nat)

/-- `ChainMap.__getitem__` (inherited by `Scope`): try each mapping of
`self.maps` in order, return the first hit; `none` embeds the `KeyError`
when no layer defines the key. -/
def Scope.getItem (s : Scope) (key : Nat) : Option Nat :=
  s.maps.findSome? (fun mp => mp key)

/-- Helper for `Scope.__setitem__`: update the first layer that defines the
key, leaving the others alone. -/
def setFirst (key value : Nat) : List (Nat → Option Nat) → List (Nat → Option Nat)
  | [] => []
  | mp :: rest =>
    if (mp key).isSome then upd mp key (some value) :: rest
    else mp :: setFirst key value rest

/-- `Scope.__setitem__(key, value)`: scan `self.maps` in order; update the
first mapping that contains the key and return; otherwise
`self.maps[0][key] = value` — `none` embeds the `IndexError` when `maps`
is empty. -/
def Scope.setItem (s : Scope) (key value : Nat) : Option Scope :=
  if s.maps.any (fun mp => (mp key).isSome) then
    some ⟨setFirst key value s.maps⟩
  else
    match s.maps with
    | [] => none
    | mp :: rest => some ⟨upd mp key (some value) :: rest⟩

/-- Small helpers about `upd`. -/
theorem upd_self {α : Type} (f : Nat → α) (k : Nat) (v : α) : upd f k v k = v := by
  simp [upd]

theorem upd_ne {α : Type} (f : Nat → α) (k : Nat) (v : α) (x : Nat) (h : x ≠ k) :
    upd f k v x = f x := by
  simp [upd, h]

theorem upd_eq_self {α : Type} (f : Nat → α) (k : Nat) (v : α) (h : f k = v) :
    upd f k v = f := by
  funext x
  by_cases hx : x = k
  · subst hx
    rw [upd_self, h]
  · rw [upd_ne _ _ _ _ hx]

/-- After the first half of activate, the state's record exists and its
`current_state` is `None` (the `state_set` list of an existing record is
kept). -/
theorem Metadata.activateBase_self (m : Metadata) (s : Nat) :
    m.activateBase s =
      upd m.active_states s
        (some { current_state := none,
                state_set := ((m.active_states s).getD StateRuntimeData.init).state_set }) := by
  unfold Metadata.activateBase
  rcases h : m.active_states s with _ | d
  · funext x
    by_cases hx : x = s
    · simp [upd, hx, h]
    · simp [upd, hx]
  · funext x
    by_cases hx : x = s
    · simp [upd, hx, h]
    · simp [upd, hx]

theorem Metadata.activateBase_at_self (m : Metadata) (s : Nat) :
    m.activateBase s s =
      some { current_state := none,
             state_set := ((m.active_states s).getD StateRuntimeData.init).state_set } := by
  rw [Metadata.activateBase_self, upd_self]

/-- The first half of activate touches no other key. -/
theorem Metadata.activateBase_ne (m : Metadata) (s x : Nat) (h : x ≠ s) :
    m.activateBase s x = m.active_states x := by
  rw [Metadata.activateBase_self, upd_ne _ _ _ _ h]

/-- The first half of activate is the identity when the state already has a
record whose `current_state` is `None`. -/
theorem Metadata.activateBase_noop (m : Metadata) (s : Nat) (d : StateRuntimeData)
    (hd : m.active_states s = some d) (hcs : d.current_state = none) :
    m.activateBase s = m.active_states := by
  rw [Metadata.activateBase_self]
  apply upd_eq_self
  rw [hd]
  rcases d with ⟨cs, ss⟩
  simp only [StateRuntimeData.current_state] at hcs
  subst hcs
  rfl

/-- A chart where state 1 is a child of state 0, used in concrete witnesses. -/
def ctxChild : Nat → Option Nat :=
  fun x => if x = 1 then some 0 else none

/-- C1: activating a state whose declared parent is not active fails with the
structural error; it succeeds when the parent is active; a state with no
context is always accepted.  (`hps` reflects the state-tree invariant that a
state is never its own context.) -/
theorem activate_parent_guard (ctx : Nat → Option Nat) (m : Metadata) (s : Nat) :
    (∀ p, ctx s = some p → p ≠ s →
      ((Metadata.activate ctx m s).2 = some "Parent state not activated" ↔
        m.active_states p = none))
    ∧ (ctx s = none → (Metadata.activate ctx m s).2 = none) := by
  constructor
  · intro p hp hps
    have hbp : m.activateBase s p = m.active_states p :=
      Metadata.activateBase_ne m s p hps
    rcases h2 : m.active_states p with _ | dp
    · simp [Metadata.activate, hp, hbp, h2]
    · simp [Metadata.activate, hp, hbp, h2]
  · intro hp
    simp only [Metadata.activate, hp]

theorem activate_parent_guard_witness :
    (Metadata.activate ctxChild Metadata.init 1).2 = some "Parent state not activated" :=
  ((activate_parent_guard ctxChild Metadata.init 1).1 0 rfl (by decide)).mpr rfl

/-- The metadata produced by activating the root state 0 of `ctxChild`. -/
def mRoot : Metadata := (Metadata.activate ctxChild Metadata.init 0).1

/-- C2: after a successful activate, the state is active, its record has
`current_state = none`, and its context's record has `current_state` equal to
the state. -/
theorem activate_success_post (ctx : Nat → Option Nat) (m : Metadata) (s : Nat)
    (hwf : ctx s ≠ some s)
    (hok : (Metadata.activate ctx m s).2 = none) :
    ((Metadata.activate ctx m s).1.active_states s).isSome = true
    ∧ (∃ d, (Metadata.activate ctx m s).1.active_states s = some d ∧
        d.current_state = none)
    ∧ ∀ p, ctx s = some p →
        ∃ d, (Metadata.activate ctx m s).1.active_states p = some d ∧
          d.current_state = some s := by
  rcases hc : ctx s with _ | p
  · have h1 : (Metadata.activate ctx m s).1.active_states = m.activateBase s := by
      simp [Metadata.activate, hc]
    refine ⟨?_, ?_, ?_⟩
    · rw [h1, Metadata.activateBase_at_self]
      rfl
    · rw [h1]
      exact ⟨_, Metadata.activateBase_at_self m s, rfl⟩
    · intro p hp
      cases hp
  · have hps : p ≠ s := by
      intro h
      exact hwf (h ▸ hc)
    rcases hpd : m.activateBase s p with _ | pd
    · exfalso
      have hbad : (Metadata.activate ctx m s).2 = some "Parent state not activated" := by
        simp [Metadata.activate, hc, hpd]
      rw [hok] at hbad
      cases hbad
    · have h1 : (Metadata.activate ctx m s).1.active_states =
          upd (m.activateBase s) p (some { pd with current_state := some s }) := by
        simp [Metadata.activate, hc, hpd]
      refine ⟨?_, ?_, ?_⟩
      · rw [h1, upd_ne _ _ _ _ (Ne.symm hps), Metadata.activateBase_at_self]
        rfl
      · rw [h1, upd_ne _ _ _ _ (Ne.symm hps)]
        exact ⟨_, Metadata.activateBase_at_self m s, rfl⟩
      · intro q hq
        injection hq with hqp
        subst hqp
        rw [h1]
        exact ⟨_, upd_self _ _ _, rfl⟩

theorem activate_success_post_witness :
    ∃ d, (Metadata.activate ctxChild mRoot 1).1.active_states 0 = some d ∧
      d.current_state = some 1 :=
  (activate_success_post ctxChild mRoot 1 (by decide) rfl).2.2 0 rfl

/-- C3: after deactivate the state is inactive, and deactivating an inactive
state leaves the metadata unchanged. -/
theorem deactivate_spec (m : Metadata) (s : Nat) :
    (Metadata.is_active (m.deactivate s) s).1 = false
    ∧ ((Metadata.is_active m s).1 = false → m.deactivate s = m) := by
  constructor
  · rcases h : m.active_states s with _ | d
    · simp [Metadata.deactivate, Metadata.is_active, h]
    · simp [Metadata.deactivate, Metadata.is_active, h, upd_self]
  · intro h
    rcases hm : m.active_states s with _ | d
    · simp [Metadata.deactivate, hm]
    · simp [Metadata.is_active, hm] at h

theorem deactivate_spec_witness :
    Metadata.init.deactivate 5 = Metadata.init :=
  (deactivate_spec Metadata.init 5).2 rfl

/-- C4: reading history raises exactly when no info is recorded, and a store
is observed by the subsequent probe and read. -/
theorem history_info_contract (m : Metadata) (h x : Nat) :
    (m.get_history_state h = none ↔ m.has_history_info h = false)
    ∧ (m.store_history_info h x).has_history_info h = true
    ∧ (m.store_history_info h x).get_history_state h = some x := by
  refine ⟨?_, ?_, ?_⟩
  · rcases hh : m.history_states h with _ | a
    · simp [Metadata.get_history_state, Metadata.has_history_info, hh]
    · simp [Metadata.get_history_state, Metadata.has_history_info, hh]
  · simp [Metadata.store_history_info, Metadata.has_history_info, upd_self]
  · simp only [Metadata.store_history_info, Metadata.get_history_state]
    exact upd_self _ _ _

/-- C5: after reset no state is active and no history state has info. -/
theorem reset_clears (m : Metadata) (s h : Nat) :
    (Metadata.is_active m.reset s).1 = false ∧ m.reset.has_history_info h = false := by
  constructor
  · simp [Metadata.reset, Metadata.is_active]
  · simp [Metadata.reset, Metadata.has_history_info]

/-- C7: a successful activate run twice in a row gives the same result as
running it once.  (`hwf` reflects the state-tree invariant that a state is
never its own context.) -/
theorem activate_idempotent (ctx : Nat → Option Nat) (m : Metadata) (s : Nat)
    (hwf : ctx s ≠ some s)
    (hok : (Metadata.activate ctx m s).2 = none) :
    Metadata.activate ctx (Metadata.activate ctx m s).1 s = Metadata.activate ctx m s := by
  rcases hc : ctx s with _ | p
  · have h1 : Metadata.activate ctx m s =
        ({ m with active_states := m.activateBase s }, none) := by
      simp [Metadata.activate, hc]
    rw [h1]
    have hb : ({ m with active_states := m.activateBase s } : Metadata).activateBase s
        = m.activateBase s :=
      Metadata.activateBase_noop _ _ _ (Metadata.activateBase_at_self m s) rfl
    simp [Metadata.activate, hc, hb]
  · have hps : p ≠ s := by
      intro h
      exact hwf (h ▸ hc)
    rcases hpd : m.activateBase s p with _ | pd
    · exfalso
      have hbad : (Metadata.activate ctx m s).2 = some "Parent state not activated" := by
        simp [Metadata.activate, hc, hpd]
      rw [hok] at hbad
      cases hbad
    · have h1 : Metadata.activate ctx m s =
          ({ m with
              active_states :=
                upd (m.activateBase s) p (some { pd with current_state := some s }) },
            none) := by
        simp [Metadata.activate, hc, hpd]
      rw [h1]
      have hA2s : upd (m.activateBase s) p (some { pd with current_state := some s }) s
          = some { current_state := none,
                   state_set := ((m.active_states s).getD StateRuntimeData.init).state_set } := by
        rw [upd_ne _ _ _ _ (Ne.symm hps)]
        exact Metadata.activateBase_at_self m s
      have hb2 : ({ m with
            active_states :=
              upd (m.activateBase s) p (some { pd with current_state := some s }) } :
              Metadata).activateBase s
          = upd (m.activateBase s) p (some { pd with current_state := some s }) :=
        Metadata.activateBase_noop _ _ _ hA2s rfl
      have hupd : upd (upd (m.activateBase s) p (some { pd with current_state := some s })) p
            (some { pd with current_state := some s })
          = upd (m.activateBase s) p (some { pd with current_state := some s }) :=
        upd_eq_self _ _ _ (upd_self _ _ _)
      simp [Metadata.activate, hc, hb2, upd_self, hupd]

theorem activate_idempotent_witness :
    Metadata.activate ctxChild (Metadata.activate ctxChild mRoot 1).1 1
      = Metadata.activate ctxChild mRoot 1 :=
  activate_idempotent ctxChild mRoot 1 (by decide) rfl

/-- C8: `is_active` returns exactly the membership bit and leaves the
metadata unchanged. -/
theorem is_active_pure (m : Metadata) (s : Nat) :
    (Metadata.is_active m s).1 = (m.active_states s).isSome
    ∧ (Metadata.is_active m s).2 = m := by
  constructor
  · rcases h : m.active_states s with _ | d
    · simp [Metadata.is_active, h]
    · simp [Metadata.is_active, h]
  · rfl

/-- C9: when activate fails on the parent check, the state itself has
already been added, so it reads as active afterwards. -/
theorem activate_failure_not_atomic (ctx : Nat → Option Nat) (m : Metadata) (s : Nat)
    (hfail : (Metadata.activate ctx m s).2 ≠ none) :
    (Metadata.is_active (Metadata.activate ctx m s).1 s).1 = true := by
  rcases hc : ctx s with _ | p
  · exact absurd (by simp [Metadata.activate, hc]) hfail
  · rcases hpd : m.activateBase s p with _ | pd
    · have h1 : (Metadata.activate ctx m s).1.active_states = m.activateBase s := by
        simp [Metadata.activate, hc, hpd]
      simp [Metadata.is_active, h1, Metadata.activateBase_at_self]
    · exact absurd (by simp [Metadata.activate, hc, hpd]) hfail

theorem activate_failure_not_atomic_witness :
    (Metadata.is_active (Metadata.activate ctxChild Metadata.init 1).1 1).1 = true :=
  activate_failure_not_atomic ctxChild Metadata.init 1 (by decide)

/-- The metadata with both states 0 and 1 of `ctxChild` active. -/
def mBoth : Metadata := (Metadata.activate ctxChild mRoot 1).1

/-- C10: deactivating a child leaves the parent's record untouched, still
pointing at the now-inactive child; only the child's own entry is removed. -/
theorem deactivate_keeps_parent (ctx : Nat → Option Nat) (m : Metadata) (s p : Nat)
    (d : StateRuntimeData) (hctx : ctx s = some p) (hps : p ≠ s)
    (hp : m.active_states p = some d) (hcs : d.current_state = some s) :
    (m.deactivate s).active_states p = some d
    ∧ (m.deactivate s).active_states s = none := by
  unfold Metadata.deactivate
  rcases hs : m.active_states s with _ | ds
  · simp [hs, hp]
  · simp [hs, upd_ne _ _ _ _ hps, upd_self, hp]

theorem deactivate_keeps_parent_witness :
    (mBoth.deactivate 1).active_states 0 =
      some { current_state := some 1, state_set := [] }
    ∧ (mBoth.deactivate 1).active_states 1 = none :=
  deactivate_keeps_parent ctxChild mBoth 1 0
    { current_state := some 1, state_set := [] } rfl (by decide) rfl rfl

/-- A read skips a first layer that does not define the key. -/
theorem Scope.getItem_cons_none (mp : Nat → Option Nat) (rest : List (Nat → Option Nat))
    (k : Nat) (h : mp k = none) :
    (Scope.mk (mp :: rest)).getItem k = (Scope.mk rest).getItem k := by
  simp [Scope.getItem, List.findSome?_cons, h]

/-- A read stops at a first layer that defines the key. -/
theorem Scope.getItem_cons_some (mp : Nat → Option Nat) (rest : List (Nat → Option Nat))
    (k w : Nat) (h : mp k = some w) :
    (Scope.mk (mp :: rest)).getItem k = some w := by
  simp [Scope.getItem, List.findSome?_cons, h]

/-- Layers that do not define the key are skipped by the read. -/
theorem Scope.getItem_append_of_none (pre rest : List (Nat → Option Nat)) (k : Nat)
    (hpre : ∀ mp ∈ pre, mp k = none) :
    (Scope.mk (pre ++ rest)).getItem k = (Scope.mk rest).getItem k := by
  induction pre with
  | nil => rfl
  | cons mp pre ih =>
    have h0 : mp k = none := hpre mp (List.mem_cons_self _ _)
    have hrec := ih (fun q hq => hpre q (List.mem_cons_of_mem _ hq))
    rw [List.cons_append]
    exact (Scope.getItem_cons_none _ _ _ h0).trans hrec

/-- `setFirst` walks past layers that do not define the key and updates the
first one that does. -/
theorem setFirst_append_of_none (pre : List (Nat → Option Nat)) (lay : Nat → Option Nat)
    (post : List (Nat → Option Nat)) (k v : Nat)
    (hpre : ∀ mp ∈ pre, mp k = none) (hlay : (lay k).isSome = true) :
    setFirst k v (pre ++ lay :: post) = pre ++ upd lay k (some v) :: post := by
  induction pre with
  | nil => simp [setFirst, hlay]
  | cons mp pre ih =>
    have h0 : mp k = none := hpre mp (List.mem_cons_self _ _)
    have hrec := ih (fun q hq => hpre q (List.mem_cons_of_mem _ hq))
    simp [setFirst, h0, hrec]

/-- C6: a read returns the value of the first layer in chain order defining
the key; a write updates the first layer in chain order that already defines
the key, else defines the key in the first (innermost) layer. -/
theorem scope_read_write (pre post : List (Nat → Option Nat)) (lay : Nat → Option Nat)
    (k v : Nat) (hpre : ∀ mp ∈ pre, mp k = none) (hlay : (lay k).isSome = true) :
    (Scope.mk (pre ++ lay :: post)).getItem k = lay k
    ∧ (Scope.mk (pre ++ lay :: post)).setItem k v =
        some (Scope.mk (pre ++ upd lay k (some v) :: post))
    ∧ ∀ m0 rest, (∀ mp ∈ m0 :: rest, mp k = none) →
        (Scope.mk (m0 :: rest)).setItem k v =
          some (Scope.mk (upd m0 k (some v) :: rest)) := by
  refine ⟨?_, ?_, ?_⟩
  · rw [Scope.getItem_append_of_none _ _ _ hpre]
    rcases h : lay k with _ | w
    · rw [h] at hlay
      cases hlay
    · exact Scope.getItem_cons_some _ _ _ _ h
  · have hany : (pre ++ lay :: post).any (fun mp => (mp k).isSome) = true :=
      List.any_eq_true.mpr ⟨lay, by simp, hlay⟩
    simp only [Scope.setItem, hany, if_true]
    rw [setFirst_append_of_none _ _ _ _ _ hpre hlay]
  · intro m0 rest hnone
    have hany : (m0 :: rest).any (fun mp => (mp k).isSome) = false := by
      rw [List.any_eq_false]
      intro mp hmp
      rw [hnone mp hmp]
      simp
    simp only [Scope.setItem, hany, Bool.false_eq_true, if_false]

/-- An outer layer that defines nothing, for the scope witness. -/
def layEmpty : Nat → Option Nat := fun _ => none

/-- An inner layer defining key 2, for the scope witness. -/
def layInner : Nat → Option Nat := fun x => if x = 2 then some 7 else none

theorem scope_read_write_witness :
    (Scope.mk [layEmpty, layInner]).getItem 2 = layInner 2
    ∧ (Scope.mk [layEmpty, layInner]).setItem 2 9 =
        some (Scope.mk [layEmpty, upd layInner 2 (some 9)]) :=
  have hpre : ∀ mp ∈ [layEmpty], mp 2 = none := by
    intro mp hmp
    rw [List.mem_singleton] at hmp
    subst hmp
    rfl
  ⟨(scope_read_write [layEmpty] [] layInner 2 9 hpre rfl).1,
   (scope_read_write [layEmpty] [] layInner 2 9 hpre rfl).2.1⟩

end Statechart
